import Mathlib

/- Shallow embedding of the tokenized-corpus storage and batch-sampling
pipeline of src/trainers/dataloader.py (classes BaseDataloader,
BytePoolingDataloader, ConversationalDataloader, NextTokenMLMDataloader).

Conventions of the embedding:
* a binary token file is the flat `List Nat` of its uint16 elements
  (`np.memmap(..., dtype=np.uint16)` yields non-negative values below 2 ^ 16);
* numpy slicing `a[i : i + n]` on a 1-D array is `(a.drop i).take n`, clamped
  at the end of the array exactly as numpy clamps;
* tensors are nested lists; `.astype(np.int64)` copies its input, so the
  returned tensors hold copies of the mapped data, and every `get_batch`
  model returns the mapped file as an explicit second component so that the
  file state after the call is part of the result;
* `torch.rand` draws are passed in as rational oracle values in `[0, 1)`;
* fallible calls (`np.memmap` shape checks, array indexing, the `torch.stack`
  argument check) return `Option`. -/

/-- Slice `a[i : i + n]` of a one-dimensional numpy array. -/
def npSlice (a : List Nat) (i n : Nat) : List Nat := (a.drop i).take n

/-- Input window of the contiguous-window policy:
`X = data[i : i + context_window]` (`BaseDataloader.get_batch` line 83,
`BaseDataloader.__getitem__` line 60). -/
def baseX (data : List Nat) (cw i : Nat) : List Nat := npSlice data i cw

/-- Target window `y = data[i + 1 : i + 1 + context_window]` (lines 90 and 61):
the window starting one position after the input window. -/
def baseY (data : List Nat) (cw i : Nat) : List Nat := npSlice data (i + 1) cw

/-- Model of `BaseDataloader.get_batch` (dataloader.py 70-100).  The offsets
`idxs` stand for the draws of `torch.randint(len(data) - context_window,
(batch_size,))`; `X` stacks the windows and `y` the shifted windows.  The
second component of the result is the state of the mapped file when the call
returns: the memmap is opened with `mode="r"` and only read. -/
def get_batch (data : List Nat) (cw : Nat) (idxs : List Nat) :
    (List (List Nat) × List (List Nat)) × List Nat :=
  ((idxs.map (baseX data cw), idxs.map (baseY data cw)), data)

/-- Model of `BaseDataloader.__getitem__` (56-67): the single `(X, y)` pair at
index `idx`, with the same windows the batch path stacks. -/
def getitem (data : List Nat) (cw idx : Nat) : List Nat × List Nat :=
  (baseX data cw idx, baseY data cw idx)

/-- The view `np.memmap(..., shape=(n, w))` provides of the flat element
stream: `n` consecutive rows of `w` elements.  numpy only checks that the
file holds at least `n * w` elements; any excess elements are ignored. -/
def chunkExact (w : Nat) : Nat → List Nat → List (List Nat)
  | 0, _ => []
  | n + 1, xs => xs.take w :: chunkExact w n (xs.drop w)

/-- Layout Resolver, row-grouped variant (`BaseDataloader.get_data` 178-191 and
`BytePoolingDataloader.get_batch` 262-275): the cached shape is
`(len(data) // byte_context_window, byte_context_window)` — floor division —
and the memmap is then re-opened with that shape, which numpy accepts whenever
the file holds at least `prod(shape)` elements (`none` models the `ValueError`
numpy raises for a file shorter than the requested shape). -/
def resolveRowLayout (flatLen w : Nat) : Option (Nat × Nat) :=
  if flatLen / w * w ≤ flatLen then some (flatLen / w, w) else none

/-- Layout Resolver, paired-turn variant (`BaseDataloader.get_data` 193-205 and
`ConversationalDataloader.get_batch` 316-331): the cached shape is
`(int(len(data) / 2 / context_window), 2, context_window)` — float division
truncated toward zero, i.e. floor division on naturals — and the memmap is
re-opened with that shape. -/
def resolvePairLayout (flatLen cw : Nat) : Option (Nat × Nat × Nat) :=
  if flatLen / (2 * cw) * (2 * cw) ≤ flatLen then
    some (flatLen / (2 * cw), 2, cw)
  else none

/-- Row-grouped view of the flat file under the resolved shape
`(len // w, w)`. -/
def rowsOfFile (data : List Nat) (w : Nat) : List (List Nat) :=
  chunkExact w (data.length / w) data

/-- Paired-turn view of the flat file under the resolved shape
`(len // (2 * cw), 2, cw)`: each super-row of `2 * cw` elements splits into
the prompt row and the response row. -/
def pairsOfFile (data : List Nat) (cw : Nat) : List (List Nat × List Nat) :=
  (chunkExact (2 * cw) (data.length / (2 * cw)) data).map
    (fun r => (r.take cw, r.drop cw))

/-- One stacked element of `BytePoolingDataloader.get_batch` (277-291):
`data[i : i + context_window]` slices whole rows of the 2-D mapped array,
yielding a `(context_window, byte_context_window)` tensor. -/
def bpX (rows : List (List Nat)) (cw i : Nat) : List (List Nat) :=
  (rows.drop i).take cw

/-- Model of `BytePoolingDataloader.get_batch` (258-297) after layout
resolution: row-sliced windows are stacked for `X`, the windows one row later
for `y`; the mapped row view returns unchanged (`mode="r"`). -/
def bp_get_batch (rows : List (List Nat)) (cw : Nat) (idxs : List Nat) :
    (List (List (List Nat)) × List (List (List Nat))) × List (List Nat) :=
  ((idxs.map (bpX rows cw), idxs.map (fun i => bpX rows cw (i + 1))), rows)

/-- Model of `BaseDataloader.__getitem__` (56-67) as it runs for
`BytePoolingDataloader` (the source comment on line 56 says it serves both
the standard and the byte-pooling variant): there `self.data` is the 2-D row
view, so the same slices `self.data[idx : idx + cw]` and
`self.data[idx + 1 : idx + 1 + cw]` select whole rows. -/
def bp_getitem (rows : List (List Nat)) (cw idx : Nat) :
    List (List Nat) × List (List Nat) :=
  (bpX rows cw idx, bpX rows cw (idx + 1))

/-- Argument passed to `torch.stack`: the API requires a sequence of tensors.
`ConversationalDataloader.get_batch` (336-341) passes a list comprehension,
while `ConversationalDataloader.__getitem__` (431-433) passes one tensor. -/
inductive StackArg (α : Type) where
  | list : List α → StackArg α
  | single : List α → StackArg α

/-- Model of `torch.stack`: stacking a list of equal-shape tensors places them
along a new leading axis (the list itself); passing a single tensor raises
`TypeError` (the `tensors` argument must be a tuple of tensors, not a
tensor), modelled as `none`. -/
def torchStack {α : Type} : StackArg α → Option (List α)
  | StackArg.list ts => some ts
  | StackArg.single _ => none

/-- Model of `ConversationalDataloader.get_batch` (312-352) after layout
resolution: `ix` stands for the draws of `torch.randint(len(data),
(batch_size,))`; each selected pair `data[i]` is a `(2, context_window)`
tensor — modelled as its two rows `[p.1, p.2]` — stacked into `Xy`, then
`X = Xy[:, 0]` and `y = Xy[:, 1]` take row 0 and row 1 of each element.
(The probe read `a = data[ix[0]]` on line 335 only reads.)  The mapped pair
view returns unchanged: the memmap is opened `mode="r+"` but never written. -/
def conv_get_batch (pairs : List (List Nat × List Nat)) (ix : List Nat) :
    Option ((List (List Nat) × List (List Nat)) × List (List Nat × List Nat)) := do
  let sel ← ix.mapM (fun i => pairs[i]?)
  let Xy ← torchStack (StackArg.list (sel.map (fun p => [p.1, p.2])))
  let X ← Xy.mapM (fun t => t[0]?)
  let y ← Xy.mapM (fun t => t[1]?)
  return ((X, y), pairs)

/-- Model of `ConversationalDataloader.__getitem__` (425-444):
`Xy = torch.stack(torch.from_numpy(self.data[idx].astype(np.int64)))` passes
the single `(2, context_window)` tensor `self.data[idx]` itself — not a
sequence of tensors — to `torch.stack`, so the call raises `TypeError`;
had it returned the tensor, `X = Xy[:, 0]` and `y = Xy[:, 1]` would then be
its two columns (the first and second token of each turn). -/
def conv_getitem (pairs : List (List Nat × List Nat)) (idx : Nat) :
    Option (List Nat × List Nat) := do
  let pr ← pairs[idx]?
  let Xy ← torchStack (StackArg.single [pr.1, pr.2])
  let X ← Xy.mapM (fun t => t[0]?)
  let y ← Xy.mapM (fun t => t[1]?)
  return (X, y)

/-- Bernoulli mask of `NextTokenMLMDataloader.get_batch` line 483:
`mask = torch.rand(X.size()) < masking_pct`, with the uniform draws `u`
passed in as rational oracle values in `[0, 1)`. -/
def bernMask (u : List (List ℚ)) (p : ℚ) : List (List Bool) :=
  u.map (fun row => row.map (fun v => decide (v < p)))

/-- The in-place overwrite `X[mask] = 0` of line 484, acting on the tensor `X`
whose storage was copied out of the mapped file by `.astype(np.int64)`. -/
def applyMask (X : List (List Nat)) (mask : List (List Bool)) : List (List Nat) :=
  List.zipWith
    (fun row mrow => List.zipWith (fun x m => if m then 0 else x) row mrow) X mask

/-- Model of `NextTokenMLMDataloader.get_batch` (452-486): the contiguous-window
batch `(X, y)` first, then the Bernoulli mask over the shape of `X`, the
overwrite `X[mask] = 0`, and the result `(X, (y, mask))`; the mapped file
(opened `mode="r"`) returns unchanged as the second component. -/
def mlm_get_batch (data : List Nat) (cw : Nat) (idxs : List Nat)
    (u : List (List ℚ)) (masking_pct : ℚ) :
    (List (List Nat) × (List (List Nat) × List (List Bool))) × List Nat :=
  ((applyMask (idxs.map (baseX data cw)) (bernMask u masking_pct),
      (idxs.map (baseY data cw), bernMask u masking_pct)), data)

/-- Model of `NextTokenMLMDataloader.__getitem__` (488-506): the single
contiguous windows `X = self.data[idx : idx + cw]` and
`y = self.data[idx + 1 : idx + 1 + cw]`, then the one-dimensional mask
`torch.rand(X.size()) < self.masking_pct` (this accessor uses the configured
`self.masking_pct`, line 503) with draws `u1`, the overwrite `X[mask] = 0` on
the copied tensor, and the result `(X, (y, mask))`. -/
def mlm_getitem (data : List Nat) (cw idx : Nat) (u1 : List ℚ)
    (masking_pct : ℚ) : List Nat × (List Nat × List Bool) :=
  (List.zipWith (fun x m => if m then 0 else x) (baseX data cw idx)
      (u1.map (fun v => decide (v < masking_pct))),
    (baseY data cw idx, u1.map (fun v => decide (v < masking_pct))))

/-- A value stored into the `np.uint16` memmap: numpy array-to-array assignment
casts with wraparound (unsafe casting), reducing each element mod 2 ^ 16
(`dtype = np.uint16`, `_write_tokenized_data` line 112). -/
def storeUint16 (v : Nat) : Nat := v % 65536

/-- Model of the shard write loop of `BaseDataloader._write_tokenized_data`
(108-126): `arr[idx : idx + len(arr_batch)] = arr_batch` followed by
`idx += len(arr_batch)` over the shard batches, so each batch lands at the
running offset of the pre-allocated uint16 array and the final file is the
batches laid out back to back, every element cast to uint16. -/
def write_tokenized_data (batches : List (List Nat)) : List Nat :=
  batches.foldl (fun arr b => arr ++ b.map storeUint16) []

/-- Exception classes relevant to `prepare_data`: the `except RuntimeError`
clause (line 161) matches only `RuntimeError`; every other exception class
(`ValueError` from tokenization, `OSError` from a full disk, ...) is
`otherError`. -/
inductive ExcKind where
  | runtimeError : ExcKind
  | otherError : ExcKind

/-- The destination directory `self.tokenized_data_path`: whether it exists,
and the split files (name, uint16 contents) it holds. -/
structure DestDir where
  present : Bool
  files : List (String × List Nat)

/-- Outcome of the tokenize-and-write body of `prepare_data` (150-160): either
it completes with the written split files, or it raises an exception of class
`kind`, leaving in the directory whatever files were written so far. -/
inductive WriteOutcome where
  | ok : List (String × List Nat) → WriteOutcome
  | fail : ExcKind → List (String × List Nat) → WriteOutcome

/-- How a `prepare_data` call terminates. -/
inductive RunResult where
  | skipped : RunResult
  | completed : RunResult
  | systemExit : RunResult
  | osError : RunResult
  | uncaught : ExcKind → RunResult

/-- Model of `BaseDataloader.prepare_data` (128-164) and of the identical
control flow of `ConversationalDataloader.prepare_data` (377-415): if the
destination directory exists, return immediately (`return  # already
processed`); otherwise create it and run the tokenize-and-write body.
`except RuntimeError` catches only `RuntimeError` and calls
`os.removedirs(self.tokenized_data_path)`, which removes the leaf directory
only when it is empty and raises `OSError` otherwise, leaving the directory
and its files in place; when the removal succeeds, `raise SystemExit`
terminates the run.  Any other exception class propagates with no cleanup. -/
def prepare_data (dest : DestDir) (outcome : WriteOutcome) : DestDir × RunResult :=
  if dest.present then (dest, RunResult.skipped)
  else
    match outcome with
    | WriteOutcome.ok fs => (⟨true, fs⟩, RunResult.completed)
    | WriteOutcome.fail ExcKind.runtimeError leftover =>
        if leftover.isEmpty then (⟨false, []⟩, RunResult.systemExit)
        else (⟨true, leftover⟩, RunResult.osError)
    | WriteOutcome.fail ExcKind.otherError leftover =>
        (⟨true, leftover⟩, RunResult.uncaught ExcKind.otherError)

/-- Element access through a numpy slice: the element at position `k < n` of
`a[i : i + n]` is the element at position `i + k` of `a`. -/
theorem npSlice_getElem? (a : List Nat) (i n k : Nat) (hk : k < n) :
    (npSlice a i n)[k]? = a[i + k]? := by
  unfold npSlice
  rw [List.getElem?_take_of_lt hk, List.getElem?_drop]

/-- Length of a numpy slice that stays inside the array. -/
theorem npSlice_length (a : List Nat) (i n : Nat) (h : i + n ≤ a.length) :
    (npSlice a i n).length = n := by
  unfold npSlice
  rw [List.length_take, List.length_drop]
  omega

/-- Every element of a slice is an element of the sliced array. -/
theorem npSlice_subset (a : List Nat) (i n : Nat) : npSlice a i n ⊆ a :=
  fun _ hv => List.drop_subset i a (List.take_subset n _ hv)

/-- Every row of the reshaped view is made of elements of the flat file. -/
theorem chunkExact_subset (w : Nat) :
    ∀ (n : Nat) (xs : List Nat), ∀ r ∈ chunkExact w n xs, r ⊆ xs := by
  intro n
  induction n with
  | zero => intro xs r hr; simp [chunkExact] at hr
  | succ m ih =>
      intro xs r hr
      simp only [chunkExact] at hr
      rcases List.mem_cons.mp hr with h | h
      · exact h ▸ List.take_subset w xs
      · exact fun v hv => List.drop_subset w xs (ih (xs.drop w) r h hv)

/-- When the flat file holds at least `n * w` elements, every row of the
`(n, w)` view has exactly `w` elements. -/
theorem chunkExact_row_length (w : Nat) :
    ∀ (n : Nat) (xs : List Nat), n * w ≤ xs.length →
      ∀ r ∈ chunkExact w n xs, r.length = w := by
  intro n
  induction n with
  | zero => intro xs _ r hr; simp [chunkExact] at hr
  | succ m ih =>
      intro xs hlen r hr
      rw [Nat.succ_mul] at hlen
      simp only [chunkExact] at hr
      rcases List.mem_cons.mp hr with h | h
      · rw [h, List.length_take]; omega
      · exact ih (xs.drop w) (by rw [List.length_drop]; omega) r h

/-- Every row of the row-grouped view has the configured byte row width. -/
theorem rowsOfFile_row_length (data : List Nat) (w : Nat) :
    ∀ r ∈ rowsOfFile data w, r.length = w :=
  chunkExact_row_length w (data.length / w) data (Nat.div_mul_le_self data.length w)

/-- Both rows of every resolved conversational pair have the configured
context-window length. -/
theorem pairsOfFile_lengths (data : List Nat) (cw : Nat) :
    ∀ pr ∈ pairsOfFile data cw, pr.1.length = cw ∧ pr.2.length = cw := by
  intro pr hpr
  unfold pairsOfFile at hpr
  rcases List.mem_map.mp hpr with ⟨r, hr, rfl⟩
  have hl : r.length = 2 * cw :=
    chunkExact_row_length (2 * cw) (data.length / (2 * cw)) data
      (Nat.div_mul_le_self data.length (2 * cw)) r hr
  refine ⟨?_, ?_⟩
  · rw [List.length_take, hl]; omega
  · rw [List.length_drop, hl]; omega

/-- Every resolved conversational pair draws its tokens from the flat file. -/
theorem pairsOfFile_subset (data : List Nat) (cw : Nat) :
    ∀ pr ∈ pairsOfFile data cw, pr.1 ⊆ data ∧ pr.2 ⊆ data := by
  intro pr hpr
  unfold pairsOfFile at hpr
  rcases List.mem_map.mp hpr with ⟨r, hr, rfl⟩
  have hsub : r ⊆ data :=
    chunkExact_subset (2 * cw) (data.length / (2 * cw)) data r hr
  exact ⟨fun v hv => hsub (List.take_subset cw r hv),
    fun v hv => hsub (List.drop_subset cw r hv)⟩

/-- Tokens selected by index lists that resolve (`mapM` over `getElem?`)
come from the indexed array, and one is selected per index. -/
theorem mapM_getElem?_some {α : Type} (xs : List α) :
    ∀ (ix : List Nat) (sel : List α),
      ix.mapM (fun i => xs[i]?) = some sel →
      sel.length = ix.length ∧ ∀ p ∈ sel, p ∈ xs := by
  intro ix
  induction ix with
  | nil =>
      intro sel h
      simp only [List.mapM_nil, pure, Option.some.injEq] at h
      simp [← h]
  | cons i tl ih =>
      intro sel h
      simp only [List.mapM_cons] at h
      cases hx : xs[i]? with
      | none => rw [hx] at h; simp at h
      | some x =>
          rw [hx] at h
          cases ht : tl.mapM (fun j => xs[j]?) with
          | none => rw [ht] at h; simp at h
          | some tsel =>
              rw [ht] at h
              simp only [Option.bind_eq_bind, Option.some_bind, pure,
                Option.some.injEq] at h
              rcases ih tsel ht with ⟨hlen, hmem⟩
              subst h
              constructor
              · simp [hlen]
              · intro p hp
                rcases List.mem_cons.mp hp with h | h
                · exact h ▸ List.getElem?_mem hx
                · exact hmem p h

/-- Mapping the first row out of each stacked pair tensor always succeeds and
selects the prompt rows. -/
theorem mapM_row0 (sel : List (List Nat × List Nat)) :
    (sel.map (fun p => [p.1, p.2])).mapM (fun t => t[0]?)
      = some (sel.map Prod.fst) := by
  induction sel with
  | nil => rfl
  | cons p tl ih =>
      rw [List.map_cons, List.mapM_cons, ih]
      rfl

/-- Mapping the second row out of each stacked pair tensor always succeeds and
selects the response rows. -/
theorem mapM_row1 (sel : List (List Nat × List Nat)) :
    (sel.map (fun p => [p.1, p.2])).mapM (fun t => t[1]?)
      = some (sel.map Prod.snd) := by
  induction sel with
  | nil => rfl
  | cons p tl ih =>
      rw [List.map_cons, List.mapM_cons, ih]
      rfl

/-- Characterization of a successful conversational batch: when every drawn
index resolves to a stored pair, the batch is the prompts and responses of
the selected pairs, and the mapped view is returned unchanged. -/
theorem conv_get_batch_eq (pairs : List (List Nat × List Nat)) (ix : List Nat)
    (sel : List (List Nat × List Nat))
    (hsel : ix.mapM (fun i => pairs[i]?) = some sel) :
    conv_get_batch pairs ix = some ((sel.map Prod.fst, sel.map Prod.snd), pairs) := by
  unfold conv_get_batch
  rw [hsel]
  simp only [Option.bind_eq_bind, Option.some_bind, torchStack]
  rw [mapM_row0, mapM_row1]
  simp only [Option.some_bind]
  rfl

/-- Every element of a `zipWith` comes from applying its function to an element
of each input list. -/
theorem zipWith_mem_elim {α β γ : Type} (f : α → β → γ) :
    ∀ (as : List α) (bs : List β), ∀ x ∈ List.zipWith f as bs,
      ∃ a ∈ as, ∃ b ∈ bs, x = f a b := by
  intro as
  induction as with
  | nil => intro bs x hx; simp at hx
  | cons a tl ih =>
      intro bs x hx
      cases bs with
      | nil => simp at hx
      | cons b tb =>
          rw [List.zipWith_cons_cons] at hx
          rcases List.mem_cons.mp hx with h | h
          · exact ⟨a, List.mem_cons_self a tl, b, List.mem_cons_self b tb, h⟩
          · rcases ih tb x h with ⟨a', ha, b', hb, hx'⟩
            exact ⟨a', List.mem_cons_of_mem a ha, b', List.mem_cons_of_mem b hb, hx'⟩

/-- Pointwise reading of a `zipWith`: where both inputs have an element, the
result has the combined element. -/
theorem zipWith_getElem?_some {α β γ : Type} (f : α → β → γ) :
    ∀ (as : List α) (bs : List β) (i : Nat) (a : α) (b : β),
      as[i]? = some a → bs[i]? = some b →
      (List.zipWith f as bs)[i]? = some (f a b) := by
  intro as
  induction as with
  | nil => intro bs i a b ha _; simp at ha
  | cons a0 tl ih =>
      intro bs i a b ha hb
      cases bs with
      | nil => simp at hb
      | cons b0 tb =>
          rw [List.zipWith_cons_cons]
          cases i with
          | zero =>
              simp only [List.getElem?_cons_zero, Option.some.injEq] at ha hb ⊢
              rw [ha, hb]
          | succ j =>
              simp only [List.getElem?_cons_succ] at ha hb ⊢
              exact ih tb j a b ha hb

/-- C1: the claim says a failed preprocessing run removes the whole destination
directory before the error propagates.  The code contradicts its own cleanup
comment: evaluating the model at the failing input — the tokenize-and-write
body raises `RuntimeError` after a partial `train.bin` was already written —
the `except RuntimeError` handler calls `os.removedirs`, which cannot remove a
non-empty directory and raises `OSError`, so the destination directory
survives together with the partial token file and a later
`os.path.exists` check mistakes it for valid processed data. -/
theorem C1_partial_file_survives_failed_write :
    prepare_data ⟨false, []⟩
        (WriteOutcome.fail ExcKind.runtimeError [("train.bin", [97])])
      = (⟨true, [("train.bin", [97])]⟩, RunResult.osError)
    ∧ (prepare_data ⟨true, [("train.bin", [97])]⟩
        (WriteOutcome.ok [("train.bin", [97, 98])])).1.files = [("train.bin", [97])] := by
  exact ⟨rfl, rfl⟩

/-- C2: round-trip shifting of the contiguous-window policy.  For every start
offset `i` in `[0, total_length - context_window)` — that is,
`i + cw < data.length` — the target window satisfies `y[k] = X[k + 1]` for
`k < cw - 1`, and `y[cw - 1]` is the file element right after the window. -/
theorem C2_round_trip_shift (data : List Nat) (cw i k : Nat)
    (hcw : 0 < cw) (hi : i + cw < data.length) :
    (k < cw - 1 → (baseY data cw i)[k]? = (baseX data cw i)[k + 1]?)
    ∧ (baseY data cw i)[cw - 1]? = some (data.get ⟨i + cw, hi⟩) := by
  constructor
  · intro hk
    unfold baseX baseY
    rw [npSlice_getElem? data (i + 1) cw k (by omega),
      npSlice_getElem? data i cw (k + 1) (by omega)]
    have h1 : i + 1 + k = i + (k + 1) := by omega
    rw [h1]
  · unfold baseY
    rw [npSlice_getElem? data (i + 1) cw (cw - 1) (by omega)]
    have h2 : i + 1 + (cw - 1) = i + cw := by omega
    rw [h2, List.getElem?_eq_getElem hi]
    simp [List.get_eq_getElem]

/-- Witness for C2 at the file `[10, 20, 30, 40]`, context window 2,
offset 0, position 0. -/
theorem C2_round_trip_shift_witness :
    (0 < 2 ∧ 0 + 2 < ([10, 20, 30, 40] : List Nat).length)
    ∧ (baseY [10, 20, 30, 40] 2 0)[2 - 1]?
        = some (([10, 20, 30, 40] : List Nat).get ⟨0 + 2, by decide⟩) :=
  ⟨⟨by decide, by decide⟩,
    (C2_round_trip_shift [10, 20, 30, 40] 2 0 0 (by decide) (by decide)).2⟩

/-- C3 counterexample: a 10-element file with byte row width 4 (so
`10 % 4 ≠ 0`) resolves without any error to the shape `(2, 4)`, silently
dropping the 2 trailing elements; likewise the paired-turn variant at context
window 2 resolves the same file to `(2, 2, 2)`, dropping 2 elements — the
claimed fatal configuration-mismatch error is never raised. -/
theorem C3_counterexample :
    10 % 4 ≠ 0 ∧ resolveRowLayout 10 4 = some (2, 4) ∧ 2 * 4 < 10
    ∧ 10 % (2 * 2) ≠ 0 ∧ resolvePairLayout 10 2 = some (2, 2, 2)
    ∧ 2 * (2 * 2) < 10 := by
  decide

/-- C3 amended: layout resolution never fails, for divisible and
non-divisible flat lengths alike — the row and pair counts are floor
divisions of the flat length and the memmap re-open always succeeds (the
truncated shape never exceeds the file), so any remainder elements are
silently dropped rather than diagnosed. -/
theorem C3_resolution_truncates (flatLen w cw : Nat) :
    resolveRowLayout flatLen w = some (flatLen / w, w)
    ∧ resolvePairLayout flatLen cw = some (flatLen / (2 * cw), 2, cw) := by
  unfold resolveRowLayout resolvePairLayout
  rw [if_pos (Nat.div_mul_le_self flatLen w),
    if_pos (Nat.div_mul_le_self flatLen (2 * cw))]
  exact ⟨rfl, rfl⟩

/-- C5 counterexample: a record with token id 70000 (too large for uint16) is
written without any configuration-time failure; the stored element is
70000 mod 2 ^ 16 = 4464, a silent coercion. -/
theorem C5_counterexample :
    write_tokenized_data [[70000]] = [4464] ∧ (4464 : Nat) ≠ 70000 :=
  ⟨rfl, by decide⟩

/-- The shard write loop appends each cast batch at the running offset. -/
theorem write_tokenized_data_foldl (batches : List (List Nat)) :
    ∀ acc : List Nat,
      batches.foldl (fun arr b => arr ++ b.map storeUint16) acc
        = acc ++ (batches.map (List.map storeUint16)).flatten := by
  induction batches with
  | nil => intro acc; simp
  | cons b tl ih =>
      intro acc
      rw [List.foldl_cons, ih, List.map_cons, List.flatten_cons, List.append_assoc]

/-- C5 amended: no configuration-time vocabulary check exists; the writer
stores every token id of every record reduced mod 2 ^ 16 (the uint16 cast),
so out-of-range ids are silently wrapped during the binary write. -/
theorem C5_write_wraps_mod_uint16 (batches : List (List Nat)) :
    write_tokenized_data batches = batches.flatten.map storeUint16 := by
  unfold write_tokenized_data
  rw [write_tokenized_data_foldl, List.map_flatten]
  rfl

/-- C8: when the destination directory already exists, `prepare_data` returns
immediately — nothing is tokenized, nothing is written, and the directory and
its token files come back exactly as they were, so a second run with the same
configuration leaves the binary token file byte-identical. -/
theorem C8_skip_if_exists (dest : DestDir) (outcome : WriteOutcome)
    (h : dest.present = true) :
    prepare_data dest outcome = (dest, RunResult.skipped) := by
  unfold prepare_data
  rw [h]
  rfl

/-- Witness for C8: a present directory with a token file is returned
untouched whatever the write body would have done. -/
theorem C8_skip_if_exists_witness :
    (DestDir.mk true [("train.bin", [1, 2])]).present = true
    ∧ prepare_data (DestDir.mk true [("train.bin", [1, 2])])
        (WriteOutcome.ok [("train.bin", [9, 9])])
      = (DestDir.mk true [("train.bin", [1, 2])], RunResult.skipped) :=
  ⟨rfl, C8_skip_if_exists (DestDir.mk true [("train.bin", [1, 2])])
    (WriteOutcome.ok [("train.bin", [9, 9])]) rfl⟩

/-- C7: the claim says index access and batch access agree for every variant.
Evaluating the conversational variant at the failing input — a split with one
stored pair `([1, 2], [3, 4])` and index 0 — the batch path returns the
prompt/response rows, but `__getitem__` passes the single `(2, 2)` tensor to
`torch.stack` instead of a sequence of tensors, so the index path raises
`TypeError` and returns nothing. -/
theorem C7_conv_index_access_diverges :
    conv_getitem [([1, 2], [3, 4])] 0 = none
    ∧ conv_get_batch [([1, 2], [3, 4])] [0]
        = some (([[1, 2]], [[3, 4]]), [([1, 2], [3, 4])]) :=
  ⟨rfl, rfl⟩

/-- C9: for every variant, a `get_batch` call leaves the mapped token file
exactly as it was — the contiguous, row-grouped and masked variants open the
memmap read-only and the conversational variant opens it `mode="r+"` but
performs no store; the masking overwrite touches only the copied tensor. -/
theorem C9_sampling_never_mutates_file (data : List Nat) (rows : List (List Nat))
    (pairs : List (List Nat × List Nat)) (cw : Nat) (idxs ix : List Nat)
    (u : List (List ℚ)) (p : ℚ) :
    (get_batch data cw idxs).2 = data
    ∧ (bp_get_batch rows cw idxs).2 = rows
    ∧ (∀ r ∈ conv_get_batch pairs ix, r.2 = pairs)
    ∧ (mlm_get_batch data cw idxs u p).2 = data := by
  refine ⟨rfl, rfl, ?_, rfl⟩
  intro r hr
  cases h : ix.mapM (fun j => pairs[j]?) with
  | none =>
      unfold conv_get_batch at hr
      rw [h] at hr
      simp at hr
  | some sel =>
      rw [conv_get_batch_eq pairs ix sel h] at hr
      simp only [Option.mem_def, Option.some.injEq] at hr
      rw [← hr]

/-- C4 amended: for every variant both returned tensors have leading (batch)
dimension equal to the number of drawn indices and X and y have matching
shapes; the trailing dimension equals the configured context window for the
contiguous, conversational and masked variants, while the row-grouped
(byte-pooling) variant returns 3-D tensors whose middle dimension is the
context window and whose trailing dimension is the byte row width. -/
theorem C4_batch_dims (data : List Nat) (cw w : Nat) (idxs ridxs ix : List Nat)
    (u : List (List ℚ)) (p : ℚ)
    (hidx : ∀ i ∈ idxs, i + cw < data.length)
    (hridx : ∀ i ∈ ridxs, i + cw < (rowsOfFile data w).length)
    (hu : u.length = idxs.length) (hurow : ∀ r ∈ u, r.length = cw) :
    ((get_batch data cw idxs).1.1.length = idxs.length
      ∧ (get_batch data cw idxs).1.2.length = idxs.length
      ∧ (∀ t ∈ (get_batch data cw idxs).1.1, t.length = cw)
      ∧ (∀ t ∈ (get_batch data cw idxs).1.2, t.length = cw))
    ∧ ((bp_get_batch (rowsOfFile data w) cw ridxs).1.1.length = ridxs.length
      ∧ (bp_get_batch (rowsOfFile data w) cw ridxs).1.2.length = ridxs.length
      ∧ (∀ t ∈ (bp_get_batch (rowsOfFile data w) cw ridxs).1.1,
          t.length = cw ∧ ∀ r ∈ t, r.length = w)
      ∧ (∀ t ∈ (bp_get_batch (rowsOfFile data w) cw ridxs).1.2,
          t.length = cw ∧ ∀ r ∈ t, r.length = w))
    ∧ (∀ res ∈ conv_get_batch (pairsOfFile data cw) ix,
        res.1.1.length = ix.length ∧ res.1.2.length = ix.length
        ∧ (∀ t ∈ res.1.1, t.length = cw) ∧ (∀ t ∈ res.1.2, t.length = cw))
    ∧ ((mlm_get_batch data cw idxs u p).1.1.length = idxs.length
      ∧ (∀ t ∈ (mlm_get_batch data cw idxs u p).1.1, t.length = cw)
      ∧ (mlm_get_batch data cw idxs u p).1.2.1.length = idxs.length
      ∧ (∀ t ∈ (mlm_get_batch data cw idxs u p).1.2.1, t.length = cw)) := by
  have hX : ∀ i ∈ idxs, (baseX data cw i).length = cw := fun i hi =>
    npSlice_length data i cw (Nat.le_of_lt (hidx i hi))
  have hY : ∀ i ∈ idxs, (baseY data cw i).length = cw := fun i hi =>
    npSlice_length data (i + 1) cw (by have := hidx i hi; omega)
  have hrw : ∀ r ∈ rowsOfFile data w, r.length = w := rowsOfFile_row_length data w
  have hbp : ∀ i, i + cw ≤ (rowsOfFile data w).length →
      (bpX (rowsOfFile data w) cw i).length = cw := by
    intro i hi
    unfold bpX
    rw [List.length_take, List.length_drop]
    omega
  have hbpmem : ∀ i t, t ∈ bpX (rowsOfFile data w) cw i → t ∈ rowsOfFile data w := by
    intro i t ht
    exact List.drop_subset i (rowsOfFile data w) (List.take_subset cw _ ht)
  refine ⟨⟨?_, ?_, ?_, ?_⟩, ⟨?_, ?_, ?_, ?_⟩, ?_, ⟨?_, ?_, ?_, ?_⟩⟩
  · simp [get_batch]
  · simp [get_batch]
  · intro t ht
    rcases List.mem_map.mp ht with ⟨i, hi, rfl⟩
    exact hX i hi
  · intro t ht
    rcases List.mem_map.mp ht with ⟨i, hi, rfl⟩
    exact hY i hi
  · simp [bp_get_batch]
  · simp [bp_get_batch]
  · intro t ht
    rcases List.mem_map.mp ht with ⟨i, hi, rfl⟩
    refine ⟨hbp i (by have := hridx i hi; omega), ?_⟩
    intro r hr
    exact hrw r (hbpmem i r hr)
  · intro t ht
    rcases List.mem_map.mp ht with ⟨i, hi, rfl⟩
    refine ⟨hbp (i + 1) (by have := hridx i hi; omega), ?_⟩
    intro r hr
    exact hrw r (hbpmem (i + 1) r hr)
  · intro res hres
    cases h : ix.mapM (fun j => (pairsOfFile data cw)[j]?) with
    | none =>
        unfold conv_get_batch at hres
        rw [h] at hres
        simp at hres
    | some sel =>
        rw [conv_get_batch_eq (pairsOfFile data cw) ix sel h] at hres
        simp only [Option.mem_def, Option.some.injEq] at hres
        rcases mapM_getElem?_some (pairsOfFile data cw) ix sel h with ⟨hlen, hmem⟩
        subst hres
        refine ⟨by simp [hlen], by simp [hlen], ?_, ?_⟩
        · intro t ht
          rcases List.mem_map.mp ht with ⟨pr, hpr, rfl⟩
          exact (pairsOfFile_lengths data cw pr (hmem pr hpr)).1
        · intro t ht
          rcases List.mem_map.mp ht with ⟨pr, hpr, rfl⟩
          exact (pairsOfFile_lengths data cw pr (hmem pr hpr)).2
  · simp [mlm_get_batch, applyMask, bernMask, List.length_zipWith, hu]
  · intro t ht
    simp only [mlm_get_batch] at ht
    rcases zipWith_mem_elim _ _ _ t ht with ⟨xr, hxr, mr, hmr, rfl⟩
    rcases List.mem_map.mp hxr with ⟨i, hi, rfl⟩
    rcases List.mem_map.mp hmr with ⟨r, hr, rfl⟩
    rw [List.length_zipWith, List.length_map, hX i hi, hurow r hr]
    omega
  · simp [mlm_get_batch]
  · intro t ht
    simp only [mlm_get_batch] at ht
    rcases List.mem_map.mp ht with ⟨i, hi, rfl⟩
    exact hY i hi

/-- C4 counterexample: with context window 1 and byte row width 3 over the
six-token file, the row-grouped `get_batch` at offset 0 returns an `X` whose
single example is the 1-by-3 matrix `[[1, 2, 3]]`: its trailing dimension is
3 — the byte context window — and not the configured context window 1, so the
claimed trailing-dimension invariant fails for the byte-pooling variant. -/
theorem C4_counterexample :
    ((bp_get_batch (rowsOfFile [1, 2, 3, 4, 5, 6] 3) 1 [0]).1.1).map
        (List.map List.length) = [[3]]
    ∧ ((bp_get_batch (rowsOfFile [1, 2, 3, 4, 5, 6] 3) 1 [0]).1.2).map
        (List.map List.length) = [[3]]
    ∧ (3 : Nat) ≠ 1 :=
  ⟨rfl, rfl, by decide⟩

/-- Witness for C4 at the six-token file, context window 1, byte row width 3,
one drawn index per variant. -/
theorem C4_batch_dims_witness :
    ((∀ i ∈ [0], i + 1 < ([1, 2, 3, 4, 5, 6] : List Nat).length)
      ∧ (∀ i ∈ [0], i + 1 < (rowsOfFile [1, 2, 3, 4, 5, 6] 3).length)
      ∧ ([[(1 : ℚ) / 2]].length = [0].length)
      ∧ (∀ r ∈ [[(1 : ℚ) / 2]], r.length = 1))
    ∧ (get_batch [1, 2, 3, 4, 5, 6] 1 [0]).1.1.length = [0].length :=
  ⟨⟨by decide, by decide, by decide, by decide⟩,
    (C4_batch_dims [1, 2, 3, 4, 5, 6] 1 3 [0] [0] [0] [[(1 : ℚ) / 2]] (1 / 2)
      (by decide) (by decide) (by decide) (by decide)).1.1⟩

/-- C6: the masked-language-model `get_batch` first builds the
contiguous-window batch, then masks.  The returned target component is the
contiguous-window `y` of the base policy; the mask cell at `(b, k)` is the
Bernoulli indicator `u[b][k] < masking_pct` of the per-call masking fraction
(the `masking_pct` argument of `get_batch`, default 0.15); the returned `X`
cell at `(b, k)` is the pad value 0 exactly when that position is masked, and
the untouched window element otherwise; and the call returns the triple
`(X, (y, mask))` read off here by projections. -/
theorem C6_mlm_masking (data : List Nat) (cw : Nat) (idxs : List Nat)
    (u : List (List ℚ)) (p : ℚ) (b k i : Nat) (urow : List ℚ) (q : ℚ)
    (hu : u.length = idxs.length) (hurow : ∀ r ∈ u, r.length = cw)
    (hk : k < cw) (hidx : ∀ j ∈ idxs, j + cw < data.length)
    (hbi : idxs[b]? = some i) (hbu : u[b]? = some urow)
    (huk : urow[k]? = some q) :
    (mlm_get_batch data cw idxs u p).1.2.1 = (get_batch data cw idxs).1.2
    ∧ ((mlm_get_batch data cw idxs u p).1.2.2)[b]?.bind (fun r => r[k]?)
        = some (decide (q < p))
    ∧ ((mlm_get_batch data cw idxs u p).1.1)[b]?.bind (fun r => r[k]?)
        = (if q < p then some 0 else (baseX data cw i)[k]?) := by
  have hmask : (bernMask u p)[b]? = some (urow.map (fun v => decide (v < p))) := by
    unfold bernMask
    rw [List.getElem?_map, hbu]
    rfl
  have hmk : (urow.map (fun v => decide (v < p)))[k]? = some (decide (q < p)) := by
    rw [List.getElem?_map, huk]
    rfl
  have hXb : (idxs.map (baseX data cw))[b]? = some (baseX data cw i) := by
    rw [List.getElem?_map, hbi]
    rfl
  have hiX : i ∈ idxs := List.getElem?_mem hbi
  have hlenX : (baseX data cw i).length = cw :=
    npSlice_length data i cw (Nat.le_of_lt (hidx i hiX))
  obtain ⟨x, hx⟩ : ∃ x, (baseX data cw i)[k]? = some x := by
    rw [List.getElem?_eq_getElem (by rw [hlenX]; exact hk)]
    exact ⟨_, rfl⟩
  have happly : (applyMask (idxs.map (baseX data cw)) (bernMask u p))[b]?
      = some (List.zipWith (fun x m => if m then 0 else x) (baseX data cw i)
          (urow.map (fun v => decide (v < p)))) := by
    unfold applyMask
    exact zipWith_getElem?_some _ _ _ b _ _ hXb hmask
  have hcell : (List.zipWith (fun x m => if m then 0 else x) (baseX data cw i)
      (urow.map (fun v => decide (v < p))))[k]? = some (if decide (q < p) then 0 else x) :=
    zipWith_getElem?_some _ _ _ k _ _ hx hmk
  refine ⟨rfl, ?_, ?_⟩
  · show (bernMask u p)[b]?.bind (fun r => r[k]?) = some (decide (q < p))
    rw [hmask, Option.some_bind]
    exact hmk
  · show (applyMask (idxs.map (baseX data cw)) (bernMask u p))[b]?.bind
        (fun r => r[k]?) = (if q < p then some 0 else (baseX data cw i)[k]?)
    rw [happly, Option.some_bind, hcell, hx]
    by_cases hqp : q < p
    · simp [hqp]
    · simp [hqp]

/-- Witness for C6 at the file `[5, 6, 7]`, context window 1, one offset, one
uniform draw 1/2 against masking fraction 3/4. -/
theorem C6_mlm_masking_witness :
    (([[(1 : ℚ) / 2]] : List (List ℚ)).length = [0].length
      ∧ (∀ r ∈ ([[(1 : ℚ) / 2]] : List (List ℚ)), r.length = 1)
      ∧ 0 < 1 ∧ (∀ j ∈ [0], j + 1 < ([5, 6, 7] : List Nat).length)
      ∧ ([0] : List Nat)[0]? = some 0
      ∧ ([[(1 : ℚ) / 2]] : List (List ℚ))[0]? = some [(1 : ℚ) / 2]
      ∧ ([(1 : ℚ) / 2] : List ℚ)[0]? = some ((1 : ℚ) / 2))
    ∧ (mlm_get_batch [5, 6, 7] 1 [0] [[(1 : ℚ) / 2]] (3 / 4)).1.2.1
        = (get_batch [5, 6, 7] 1 [0]).1.2 :=
  ⟨⟨rfl, by decide, by decide, by decide, rfl, rfl, rfl⟩,
    (C6_mlm_masking [5, 6, 7] 1 [0] [[(1 : ℚ) / 2]] (3 / 4) 0 0 0 [(1 : ℚ) / 2]
      ((1 : ℚ) / 2) rfl (by decide) (by decide) (by decide) rfl rfl rfl).1⟩

/-- C10: every token value in any X or y returned by any variant's batch
sampler or index accessor is below 2 ^ 16: values are read from unsigned
16-bit storage — modelled by the bound on the flat file's elements — and
widened to int64 without change, and the masked variant's overwrite value 0
is also in range.  The index accessors are covered by the last seven
conjuncts: the flat accessor, the byte-pooling row accessor, the
conversational accessor (which returns no tensor at all — it raises, see
C7 — so every tensor it does return is in range), and the masked accessor.
(Tokens are modelled as naturals, so non-negativity is intrinsic.) -/
theorem C10_tokens_below_2pow16 (data : List Nat) (cw w : Nat)
    (idxs ix : List Nat) (u : List (List ℚ)) (u1 : List ℚ) (p : ℚ) (idx : Nat)
    (hdata : ∀ v ∈ data, v < 65536) :
    (∀ t ∈ (get_batch data cw idxs).1.1, ∀ v ∈ t, v < 65536)
    ∧ (∀ t ∈ (get_batch data cw idxs).1.2, ∀ v ∈ t, v < 65536)
    ∧ (∀ t ∈ (bp_get_batch (rowsOfFile data w) cw idxs).1.1,
        ∀ r ∈ t, ∀ v ∈ r, v < 65536)
    ∧ (∀ t ∈ (bp_get_batch (rowsOfFile data w) cw idxs).1.2,
        ∀ r ∈ t, ∀ v ∈ r, v < 65536)
    ∧ (∀ res ∈ conv_get_batch (pairsOfFile data cw) ix,
        (∀ t ∈ res.1.1, ∀ v ∈ t, v < 65536)
        ∧ (∀ t ∈ res.1.2, ∀ v ∈ t, v < 65536))
    ∧ (∀ t ∈ (mlm_get_batch data cw idxs u p).1.1, ∀ v ∈ t, v < 65536)
    ∧ (∀ t ∈ (mlm_get_batch data cw idxs u p).1.2.1, ∀ v ∈ t, v < 65536)
    ∧ (∀ v ∈ (getitem data cw idx).1, v < 65536)
    ∧ (∀ v ∈ (getitem data cw idx).2, v < 65536)
    ∧ (∀ r ∈ (bp_getitem (rowsOfFile data w) cw idx).1, ∀ v ∈ r, v < 65536)
    ∧ (∀ r ∈ (bp_getitem (rowsOfFile data w) cw idx).2, ∀ v ∈ r, v < 65536)
    ∧ (∀ res ∈ conv_getitem (pairsOfFile data cw) idx,
        (∀ v ∈ res.1, v < 65536) ∧ (∀ v ∈ res.2, v < 65536))
    ∧ (∀ v ∈ (mlm_getitem data cw idx u1 p).1, v < 65536)
    ∧ (∀ v ∈ (mlm_getitem data cw idx u1 p).2.1, v < 65536) := by
  have hslice : ∀ i n : Nat, ∀ v ∈ npSlice data i n, v < 65536 := fun i n v hv =>
    hdata v (npSlice_subset data i n hv)
  have hrowsub : ∀ r ∈ rowsOfFile data w, r ⊆ data := fun r hr =>
    chunkExact_subset w (data.length / w) data r hr
  have hXok : ∀ t ∈ idxs.map (baseX data cw), ∀ v ∈ t, v < 65536 := by
    intro t ht v hv
    rcases List.mem_map.mp ht with ⟨i, _, rfl⟩
    exact hslice i cw v hv
  have hYok : ∀ t ∈ idxs.map (baseY data cw), ∀ v ∈ t, v < 65536 := by
    intro t ht v hv
    rcases List.mem_map.mp ht with ⟨i, _, rfl⟩
    exact hslice (i + 1) cw v hv
  refine ⟨hXok, hYok, ?_, ?_, ?_, ?_, hYok, ?_, ?_, ?_, ?_, ?_, ?_, ?_⟩
  · intro t ht r hr v hv
    rcases List.mem_map.mp ht with ⟨i, _, rfl⟩
    have hrrows : r ∈ rowsOfFile data w :=
      List.drop_subset i (rowsOfFile data w) (List.take_subset cw _ hr)
    exact hdata v (hrowsub r hrrows hv)
  · intro t ht r hr v hv
    rcases List.mem_map.mp ht with ⟨i, _, rfl⟩
    have hrrows : r ∈ rowsOfFile data w :=
      List.drop_subset (i + 1) (rowsOfFile data w) (List.take_subset cw _ hr)
    exact hdata v (hrowsub r hrrows hv)
  · intro res hres
    cases h : ix.mapM (fun j => (pairsOfFile data cw)[j]?) with
    | none =>
        unfold conv_get_batch at hres
        rw [h] at hres
        simp at hres
    | some sel =>
        rw [conv_get_batch_eq (pairsOfFile data cw) ix sel h] at hres
        simp only [Option.mem_def, Option.some.injEq] at hres
        rcases mapM_getElem?_some (pairsOfFile data cw) ix sel h with ⟨_, hmem⟩
        subst hres
        constructor
        · intro t ht v hv
          rcases List.mem_map.mp ht with ⟨pr, hpr, rfl⟩
          exact hdata v ((pairsOfFile_subset data cw pr (hmem pr hpr)).1 hv)
        · intro t ht v hv
          rcases List.mem_map.mp ht with ⟨pr, hpr, rfl⟩
          exact hdata v ((pairsOfFile_subset data cw pr (hmem pr hpr)).2 hv)
  · intro t ht v hv
    simp only [mlm_get_batch] at ht
    rcases zipWith_mem_elim _ _ _ t ht with ⟨xr, hxr, mr, _, rfl⟩
    rcases zipWith_mem_elim _ _ _ v hv with ⟨x, hx, m, _, rfl⟩
    cases m with
    | false => simpa using hXok xr hxr x hx
    | true => simp
  · exact fun v hv => hslice idx cw v hv
  · exact fun v hv => hslice (idx + 1) cw v hv
  · intro r hr v hv
    have hrrows : r ∈ rowsOfFile data w :=
      List.drop_subset idx (rowsOfFile data w) (List.take_subset cw _ hr)
    exact hdata v (hrowsub r hrrows hv)
  · intro r hr v hv
    have hrrows : r ∈ rowsOfFile data w :=
      List.drop_subset (idx + 1) (rowsOfFile data w) (List.take_subset cw _ hr)
    exact hdata v (hrowsub r hrrows hv)
  · intro res hres
    unfold conv_getitem at hres
    cases h : (pairsOfFile data cw)[idx]? with
    | none => rw [h] at hres; simp at hres
    | some pr => rw [h] at hres; simp [torchStack] at hres
  · intro v hv
    simp only [mlm_getitem] at hv
    rcases zipWith_mem_elim _ _ _ v hv with ⟨x, hx, m, _, rfl⟩
    cases m with
    | false => simpa using hslice idx cw x hx
    | true => simp
  · exact fun v hv => hslice (idx + 1) cw v hv

/-- Witness for C10 at the two-token file `[1, 2]`, context window 1, byte row
width 1, one drawn index per variant and record index 0 for the accessors. -/
theorem C10_tokens_below_2pow16_witness :
    (∀ v ∈ ([1, 2] : List Nat), v < 65536)
    ∧ (∀ t ∈ (get_batch [1, 2] 1 [0]).1.1, ∀ v ∈ t, v < 65536) :=
  ⟨by decide,
    (C10_tokens_below_2pow16 [1, 2] 1 1 [0] [0] [[(1 : ℚ) / 2]] [(1 : ℚ) / 2]
      (1 / 2) 0 (by decide)).1⟩
